import Mathlib

/-!
Shallow embedding of the tagging core of the repository (src/tagging/tools.py):
the tag resolver `apply_tags_to_element`, the context builder `create_context_info`,
the section tagger `tag_statement_section` and the document validator
`validate_tagged_data`, together with proofs of the specification's testable
properties about them.

Python dictionaries are modelled as insertion-ordered association lists with
unique keys; Python's `Any` values are modelled by the inductive `PyValue`.
-/

namespace POC

/-- Model of a Python runtime value as it occurs in the tagging tools:
strings, integers, booleans, `None`, lists and (insertion-ordered) dicts. -/
inductive PyValue : Type where
  | vStr (s : String) : PyValue
  | vInt (n : Int) : PyValue
  | vBool (b : Bool) : PyValue
  | vNone : PyValue
  | vList (l : List PyValue) : PyValue
  | vDict (d : List (String × PyValue)) : PyValue

/-- Python `key in d` / `d[key]` on a dict modelled as an association list:
the lookup of the (unique) key. -/
def alookup {β : Type} (k : String) : List (String × β) → Option β
  | [] => none
  | (k', v) :: rest => if k' = k then some v else alookup k rest

/-- Python `d[key] = v` on a dict modelled as an association list: replace the
value in place if the key is present (its position is preserved), otherwise
append the new key at the end, exactly as CPython dicts behave. -/
def aset {β : Type} (d : List (String × β)) (k : String) (v : β) : List (String × β) :=
  if (alookup k d).isSome then d.map (fun p => if p.1 = k then (k, v) else p)
  else d ++ [(k, v)]

/-- Python truthiness (`bool(x)`) of a modelled value, used for `not field_data["tags"]`. -/
def pyFalsy : PyValue → Bool
  | .vStr s => s.data.isEmpty
  | .vInt n => n == 0
  | .vBool b => !b
  | .vNone => true
  | .vList l => l.isEmpty
  | .vDict d => d.isEmpty

/-- Python `isinstance(v, (list, dict))`, the test used to skip nested structures. -/
def isListOrDict : PyValue → Bool
  | .vList _ => true
  | .vDict _ => true
  | _ => false

/-- Modelled from the spec: the `TagDefinition` pydantic model lives in the
repository's `dependencies` module, which is not under `src/`; §3 and §6 of the
spec fix its serializable attributes: element_name, data_type, balance_type,
period_type, description. -/
structure TagDefinition : Type where
  element_name : String
  data_type : String
  balance_type : String
  period_type : String
  description : String
deriving DecidableEq

/-- Serialization `tag.dict()` of a tag definition to a plain key-value mapping. -/
def TagDefinition.dict (t : TagDefinition) : PyValue :=
  .vDict [("element_name", .vStr t.element_name), ("data_type", .vStr t.data_type),
          ("balance_type", .vStr t.balance_type), ("period_type", .vStr t.period_type),
          ("description", .vStr t.description)]

/-- Modelled from the spec: the `XBRLTaxonomyDependencies` registry object lives
in the repository's `dependencies` module, not under `src/`; §6 of the spec fixes
its attributes: `field_tags` (field name → ordered tag sequence), `statement_tags`
(ordered sequence of section-level tags) and `mandatory_fields` (field name →
bool). Dicts are modelled as insertion-ordered association lists. -/
structure XBRLTaxonomyDependencies : Type where
  field_tags : List (String × List TagDefinition)
  statement_tags : List TagDefinition
  mandatory_fields : List (String × Bool)

/-- Python `str.lower()` on the character data of a string. -/
def lowerData (s : String) : List Char := s.data.map Char.toLower

/-- Boolean test that `p` is a prefix of `l`. -/
def isPrefixList : List Char → List Char → Bool
  | [], _ => true
  | _ :: _, [] => false
  | a :: as, b :: bs => a == b && isPrefixList as bs

/-- Boolean test that `needle` occurs as a contiguous substring of the second list. -/
def containsSub (needle : List Char) : List Char → Bool
  | [] => isPrefixList needle []
  | c :: rest => isPrefixList needle (c :: rest) || containsSub needle rest

/-- Python `a in b` on strings: `a` is a contiguous substring of `b`. -/
def pyIn (a b : String) : Bool := containsSub a.data b.data

/-- The fuzzy-match condition of `apply_tags_to_element`:
`element_name.lower() in field_name.lower() or field_name.lower() in element_name.lower()`. -/
def fuzzyCond (element_name field_name : String) : Bool :=
  containsSub (lowerData element_name) (lowerData field_name) ||
  containsSub (lowerData field_name) (lowerData element_name)

/-- The fuzzy-fallback loop of `apply_tags_to_element`: walk the registry's
field-tag index in its insertion order and stop at the first entry satisfying
the bidirectional substring condition. -/
def fuzzyScan (element_name : String) :
    List (String × List TagDefinition) → Option (String × List TagDefinition)
  | [] => none
  | (fname, ftags) :: rest =>
    if fuzzyCond element_name fname then some (fname, ftags)
    else fuzzyScan element_name rest

/-- The tag-search of `apply_tags_to_element`: exact dict lookup first, with an
exact-match message; otherwise the fuzzy-fallback loop, recording which
candidate was used; otherwise no tags. Returns the pair (tags, messages). -/
def findTags (deps : XBRLTaxonomyDependencies) (element_name : String) :
    List TagDefinition × List String :=
  match alookup element_name deps.field_tags with
  | some ts => (ts, ["Found exact tag match for " ++ element_name])
  | none =>
    match fuzzyScan element_name deps.field_tags with
    | some p => (p.2, ["No exact tag match found for " ++ element_name,
                       "Using similar tag: " ++ p.1])
    | none => ([], ["No exact tag match found for " ++ element_name])

/-- The result dictionary of `apply_tags_to_element`. -/
structure TaggedElementResult : Type where
  element_name : String
  value : PyValue
  tags : List PyValue
  is_mandatory : Bool
  messages : List String

/-- Embedding of `apply_tags_to_element` (src/tagging/tools.py, lines 12-65).
The unused Python parameters `statement_type` and `is_instant` are kept for
signature fidelity. -/
def apply_tags_to_element (deps : XBRLTaxonomyDependencies) (element_name : String)
    (value : PyValue) (statement_type : String) (is_instant : Bool) :
    TaggedElementResult :=
  let tm := findTags deps element_name
  let im := match alookup element_name deps.mandatory_fields with
    | some b => b
    | none => false
  { element_name := element_name
    value := value
    tags := tm.1.map TagDefinition.dict
    is_mandatory := im
    messages := if im then tm.2 ++ ["Note: " ++ element_name ++ " is a mandatory field"]
                else tm.2 }

/-- A Python `datetime.date`. -/
structure PyDate : Type where
  year : Nat
  month : Nat
  day : Nat
deriving DecidableEq

/-- Zero-pad the decimal rendering of `n` on the left to width `w`. -/
def padNum (w n : Nat) : String :=
  ⟨List.replicate (w - (Nat.repr n).length) '0' ++ (Nat.repr n).data⟩

/-- Python `d.strftime('%Y%m%d')`. -/
def PyDate.strftimeYMD (d : PyDate) : String :=
  padNum 4 d.year ++ padNum 2 d.month ++ padNum 2 d.day

/-- Python `d.isoformat()`: the ISO 8601 form YYYY-MM-DD. -/
def PyDate.isoformat (d : PyDate) : String :=
  padNum 4 d.year ++ "-" ++ padNum 2 d.month ++ "-" ++ padNum 2 d.day

/-- Strict lexicographic comparison of character lists, the order underlying
Python string comparison (by code point). -/
def charListLT : List Char → List Char → Bool
  | [], [] => false
  | [], _ :: _ => true
  | _ :: _, [] => false
  | a :: as, b :: bs => if a < b then true else if b < a then false else charListLT as bs

/-- Python tuple comparison `(name, value) <= (name', value')` used by
`sorted(dimensions.items())`: by name first, then by value. -/
def pairLE (p q : String × String) : Bool :=
  if charListLT p.1.data q.1.data then true
  else if charListLT q.1.data p.1.data then false
  else !(charListLT q.2.data p.2.data)

/-- The order on dimension items as a relation, for use with `List.insertionSort`. -/
def dimRel (p q : String × String) : Prop := pairLE p q = true

instance : DecidableRel dimRel := fun p q => instDecidableEqBool (pairLE p q) true

/-- Python `sorted(dimensions.items())`: the items sorted by name, then value.
On dict-valid input (distinct keys) every correct sort agrees, so insertion
sort is a faithful model of CPython's sort. -/
def sortedItems (dimensions : List (String × String)) : List (String × String) :=
  List.insertionSort dimRel dimensions

/-- Python `'_'.join(parts)`. -/
def joinParts : List String → String
  | [] => ""
  | [p] => p
  | p :: q :: ps => p ++ "_" ++ joinParts (q :: ps)

/-- The context dictionary returned by `create_context_info`: the generated
identifier, the entity block, the period block (start date present only for
duration contexts), the consolidation flag, and the dimensions (present only
when non-empty). -/
structure ContextInfo : Type where
  id : String
  entity_name : String
  entity_identifier : String
  period_end_date : String
  period_start_date : Option String
  is_consolidated : Bool
  dimensions : Option (List (String × String))

/-- Embedding of `create_context_info` (src/tagging/tools.py, lines 68-125).
The Python `dimensions` parameter defaults to `None`; `None` and `{}` behave
identically (both falsy), so both are modelled by the empty list. -/
def create_context_info (entity_name entity_identifier : String) (period_end : PyDate)
    (period_start : Option PyDate) (is_consolidated : Bool)
    (dimensions : List (String × String)) : ContextInfo :=
  let period_part : String :=
    match period_start with
    | none => "i" ++ period_end.strftimeYMD
    | some ps => "d" ++ ps.strftimeYMD ++ "to" ++ period_end.strftimeYMD
  let base : String := "ctx_" ++ period_part ++ "_" ++ (if is_consolidated then "c" else "s")
  let context_id : String :=
    if dimensions.isEmpty then base
    else base ++ "_" ++ joinParts ((sortedItems dimensions).map (fun p => p.1 ++ "-" ++ p.2))
  { id := context_id
    entity_name := entity_name
    entity_identifier := entity_identifier
    period_end_date := period_end.isoformat
    period_start_date := period_start.map PyDate.isoformat
    is_consolidated := is_consolidated
    dimensions := if dimensions.isEmpty then none else some dimensions }

/-- The `{"value": ..., "tags": [...]}` element that `tag_statement_section`
stores for a scalar field: the value together with the tags found by exact
lookup only (`tags = []; if element_name in field_tags: tags = ...`). -/
def sectionElement (deps : XBRLTaxonomyDependencies) (p : String × PyValue) : PyValue :=
  .vDict [("value", p.2),
          ("tags", .vList (((alookup p.1 deps.field_tags).getD []).map TagDefinition.dict))]

/-- One iteration of the element loop of `tag_statement_section`: lists and
dicts are skipped, scalar fields are stored by dict assignment. -/
def tssStep (deps : XBRLTaxonomyDependencies) (acc : List (String × PyValue))
    (p : String × PyValue) : List (String × PyValue) :=
  if isListOrDict p.2 then acc else aset acc p.1 (sectionElement deps p)

/-- The section-level abstract tags collected by `tag_statement_section`:
every statement tag whose element name contains the section name
(case-insensitively, in that direction only). -/
def metaTags (deps : XBRLTaxonomyDependencies) (section_name : String) : List PyValue :=
  (deps.statement_tags.filter
    (fun tag => containsSub (lowerData section_name) (lowerData tag.element_name))).map
    TagDefinition.dict

/-- Embedding of `tag_statement_section` (src/tagging/tools.py, lines 128-167):
start from `{"meta_tags": [...]}`, then walk `section_data` in order, skipping
list- and dict-valued entries and storing a `{"value", "tags"}` element for
every scalar entry. -/
def tag_statement_section (deps : XBRLTaxonomyDependencies) (section_name : String)
    (section_data : List (String × PyValue)) : List (String × PyValue) :=
  section_data.foldl (tssStep deps) [("meta_tags", .vList (metaTags deps section_name))]

/-- A validation issue: one of the two dictionary shapes appended by
`validate_tagged_data`. -/
inductive ValidationIssue : Type where
  | missing_mandatory_field (field : String) (message : String) : ValidationIssue
  | missing_tags (sectionName : String) (field : String) (message : String) : ValidationIssue
deriving DecidableEq

/-- The section search of the mandatory-field check: some section value is a
dict containing the field name as a key. -/
def sectionHasKey (f : String) (v : PyValue) : Bool :=
  match v with
  | .vDict d => (alookup f d).isSome
  | _ => false

/-- One step of the mandatory-field loop: an issue is produced exactly when the
field is flagged mandatory and the section search fails. -/
def mandatoryIssue (tagged_data : List (String × PyValue)) (p : String × Bool) :
    Option ValidationIssue :=
  if p.2 && !(tagged_data.any (fun q => sectionHasKey p.1 q.2)) then
    some (.missing_mandatory_field p.1
      ("Mandatory field '" ++ p.1 ++ "' is missing from the tagged data"))
  else none

/-- The mandatory-field pass of `validate_tagged_data`: one
`missing_mandatory_field` issue per field flagged mandatory that no section
contains as a key. -/
def missingMandatoryIssues (deps : XBRLTaxonomyDependencies)
    (tagged_data : List (String × PyValue)) : List ValidationIssue :=
  deps.mandatory_fields.filterMap (mandatoryIssue tagged_data)

/-- One step of the inner field loop of the tag-coverage check: an issue is
produced exactly for a dict-valued field whose `"tags"` entry is present and
falsy. -/
def fieldIssue (sname : String) (fp : String × PyValue) : Option ValidationIssue :=
  match fp.2 with
  | .vDict fd =>
    match alookup "tags" fd with
    | some tv =>
      if pyFalsy tv then
        some (.missing_tags sname fp.1
          ("No tags applied to field '" ++ fp.1 ++ "' in section '" ++ sname ++ "'"))
      else none
    | none => none
  | _ => none

/-- The issues contributed by one section in the tag-coverage pass: nothing for
a non-dict section value. -/
def sectionIssues (q : String × PyValue) : List ValidationIssue :=
  match q.2 with
  | .vDict d => d.filterMap (fieldIssue q.1)
  | _ => []

/-- The tag-coverage pass of `validate_tagged_data`: one `missing_tags` issue
per dict-valued field of a dict-valued section whose `"tags"` entry is falsy. -/
def missingTagsIssues (tagged_data : List (String × PyValue)) : List ValidationIssue :=
  tagged_data.flatMap sectionIssues

/-- Embedding of `validate_tagged_data` (src/tagging/tools.py, lines 170-216):
the mandatory-field issues in registry order followed by the tag-coverage
issues in section/field order. -/
def validate_tagged_data (deps : XBRLTaxonomyDependencies)
    (tagged_data : List (String × PyValue)) : List ValidationIssue :=
  missingMandatoryIssues deps tagged_data ++ missingTagsIssues tagged_data

/-! ### Helper lemmas: the character-list order -/

/-- Two strings with the same character data are equal. -/
theorem str_eq_of_data {s t : String} (h : s.data = t.data) : s = t := by
  cases s; cases t; exact congrArg String.mk h

theorem data_append (s t : String) : (s ++ t).data = s.data ++ t.data := rfl

theorem charListLT_trans : ∀ {a b c : List Char}, charListLT a b = true →
    charListLT b c = true → charListLT a c = true := by
  intro a
  induction a with
  | nil =>
    intro b c h1 h2
    cases b with
    | nil => simp [charListLT] at h1
    | cons y ys =>
      cases c with
      | nil => simp [charListLT] at h2
      | cons z zs => simp [charListLT]
  | cons x xs ih =>
    intro b c h1 h2
    cases b with
    | nil => simp [charListLT] at h1
    | cons y ys =>
      cases c with
      | nil => simp [charListLT] at h2
      | cons z zs =>
        rcases lt_trichotomy x y with hxy | hxy | hxy
        · rcases lt_trichotomy y z with hyz | hyz | hyz
          · simp [charListLT, lt_trans hxy hyz]
          · subst hyz; simp [charListLT, hxy]
          · simp [charListLT, lt_asymm hyz, hyz] at h2
        · subst hxy
          rcases lt_trichotomy x z with hxz | hxz | hxz
          · simp [charListLT, hxz]
          · subst hxz
            simp only [charListLT, lt_irrefl, if_false] at h1 h2 ⊢
            exact ih h1 h2
          · simp [charListLT, lt_asymm hxz, hxz] at h2
        · simp [charListLT, lt_asymm hxy, hxy] at h1

theorem charListLT_asymm : ∀ {a b : List Char}, charListLT a b = true →
    charListLT b a = false := by
  intro a
  induction a with
  | nil =>
    intro b h
    cases b with
    | nil => simp [charListLT] at h
    | cons y ys => simp [charListLT]
  | cons x xs ih =>
    intro b h
    cases b with
    | nil => simp [charListLT] at h
    | cons y ys =>
      rcases lt_trichotomy x y with hxy | hxy | hxy
      · simp [charListLT, lt_asymm hxy, hxy]
      · subst hxy
        simp only [charListLT, lt_irrefl, if_false] at h ⊢
        exact ih h
      · simp [charListLT, lt_asymm hxy, hxy] at h

theorem charListLT_irrefl (a : List Char) : charListLT a a = false := by
  cases h : charListLT a a with
  | false => rfl
  | true => exact ((charListLT_asymm h).symm.trans h).symm

theorem charListLT_conn : ∀ {a b : List Char}, charListLT a b = false →
    charListLT b a = false → a = b := by
  intro a
  induction a with
  | nil =>
    intro b h1 _
    cases b with
    | nil => rfl
    | cons y ys => simp [charListLT] at h1
  | cons x xs ih =>
    intro b h1 h2
    cases b with
    | nil => simp [charListLT] at h2
    | cons y ys =>
      rcases lt_trichotomy x y with hxy | hxy | hxy
      · simp [charListLT, hxy] at h1
      · subst hxy
        simp only [charListLT, lt_irrefl, if_false] at h1 h2
        rw [ih h1 h2]
      · simp [charListLT, hxy] at h2

/-! ### Helper lemmas: the dimension-item order is a total order -/

theorem pairLE_iff {p q : String × String} : pairLE p q = true ↔
    (charListLT p.1.data q.1.data = true ∨
      (p.1 = q.1 ∧ charListLT q.2.data p.2.data = false)) := by
  unfold pairLE
  cases h1 : charListLT p.1.data q.1.data with
  | true => simp [h1]
  | false =>
    cases h2 : charListLT q.1.data p.1.data with
    | true =>
      simp only [if_false, if_true, Bool.false_eq_true, false_iff, not_or, not_and]
      refine ⟨by simp [h1], fun heq => ?_⟩
      rw [heq] at h2
      rw [charListLT_irrefl] at h2
      simp at h2
    | false =>
      have hkey : p.1 = q.1 := str_eq_of_data (charListLT_conn h1 h2)
      simp [h1, hkey, Bool.not_eq_true']

instance : IsTotal (String × String) dimRel := by
  constructor
  intro p q
  unfold dimRel
  rw [pairLE_iff, pairLE_iff]
  cases h1 : charListLT p.1.data q.1.data with
  | true => exact Or.inl (Or.inl rfl)
  | false =>
    cases h2 : charListLT q.1.data p.1.data with
    | true => exact Or.inr (Or.inl rfl)
    | false =>
      have hkey : p.1 = q.1 := str_eq_of_data (charListLT_conn h1 h2)
      cases h3 : charListLT q.2.data p.2.data with
      | false => exact Or.inl (Or.inr ⟨hkey, rfl⟩)
      | true => exact Or.inr (Or.inr ⟨hkey.symm, charListLT_asymm h3⟩)

instance : IsTrans (String × String) dimRel := by
  constructor
  intro p q r h1 h2
  unfold dimRel at h1 h2 ⊢
  rw [pairLE_iff] at h1 h2 ⊢
  rcases h1 with h1 | ⟨he1, hv1⟩
  · rcases h2 with h2 | ⟨he2, _⟩
    · exact Or.inl (charListLT_trans h1 h2)
    · exact Or.inl (congrArg String.data he2 ▸ h1)
  · rcases h2 with h2 | ⟨he2, hv2⟩
    · exact Or.inl (congrArg String.data he1 ▸ h2)
    · refine Or.inr ⟨he1.trans he2, ?_⟩
      cases hrp : charListLT r.2.data p.2.data with
      | false => rfl
      | true =>
        exfalso
        cases hpq : charListLT p.2.data q.2.data with
        | true =>
          have : charListLT r.2.data q.2.data = true := charListLT_trans hrp hpq
          rw [hv2] at this
          simp at this
        | false =>
          have hd : p.2.data = q.2.data := charListLT_conn hpq hv1
          rw [hd] at hrp
          rw [hv2] at hrp
          simp at hrp

instance : IsAntisymm (String × String) dimRel := by
  constructor
  intro p q h1 h2
  unfold dimRel at h1 h2
  rw [pairLE_iff] at h1 h2
  rcases h1 with h1 | ⟨he1, hv1⟩
  · rcases h2 with h2 | ⟨he2, _⟩
    · rw [charListLT_asymm h2] at h1
      simp at h1
    · rw [congrArg String.data he2] at h1
      rw [charListLT_irrefl] at h1
      simp at h1
  · rcases h2 with h2 | ⟨_, hv2⟩
    · rw [congrArg String.data he1] at h2
      rw [charListLT_irrefl] at h2
      simp at h2
    · have hv : p.2 = q.2 := str_eq_of_data (charListLT_conn hv2 hv1)
      cases p; cases q
      simp only at he1 hv
      rw [he1, hv]

/-! ### Helper lemmas: association-list dictionaries -/

theorem alookup_append {β : Type} (k : String) : ∀ (d1 d2 : List (String × β)),
    alookup k (d1 ++ d2) =
      match alookup k d1 with
      | some v => some v
      | none => alookup k d2 := by
  intro d1 d2
  induction d1 with
  | nil => simp [alookup]
  | cons p rest ih =>
    by_cases h : p.1 = k
    · simp [alookup, h]
    · simpa [alookup, h] using ih

theorem alookup_cons {β : Type} (k k1 : String) (v1 : β) (rest : List (String × β)) :
    alookup k ((k1, v1) :: rest) = if k1 = k then some v1 else alookup k rest := rfl

theorem alookup_map_replace {β : Type} (k : String) (v : β) :
    ∀ (d : List (String × β)),
    alookup k (d.map (fun p => if p.1 = k then (k, v) else p)) =
      match alookup k d with
      | some _ => some v
      | none => none := by
  intro d
  induction d with
  | nil => rfl
  | cons p rest ih =>
    obtain ⟨p1, p2⟩ := p
    by_cases h : p1 = k
    · simp only [List.map_cons, if_pos h, alookup_cons, if_pos rfl, if_pos h]
      simp
    · simp only [List.map_cons, if_neg h, alookup_cons, if_neg h]
      exact ih

theorem alookup_map_replace_other {β : Type} (k k' : String) (v : β) (hne : k' ≠ k) :
    ∀ (d : List (String × β)),
    alookup k' (d.map (fun p => if p.1 = k then (k, v) else p)) = alookup k' d := by
  intro d
  induction d with
  | nil => rfl
  | cons p rest ih =>
    obtain ⟨p1, p2⟩ := p
    by_cases h : p1 = k
    · have h1 : ¬ k = k' := fun hc => hne hc.symm
      have h2 : ¬ p1 = k' := by rw [h]; exact h1
      simp only [List.map_cons, if_pos h, alookup_cons, if_neg h1, if_neg h2]
      exact ih
    · by_cases h' : p1 = k'
      · simp only [List.map_cons, if_neg h, alookup_cons, if_pos h']
      · simp only [List.map_cons, if_neg h, alookup_cons, if_neg h']
        exact ih

theorem alookup_aset_self {β : Type} (d : List (String × β)) (k : String) (v : β) :
    alookup k (aset d k v) = some v := by
  unfold aset
  by_cases hp : (alookup k d).isSome = true
  · rw [if_pos hp, alookup_map_replace]
    obtain ⟨w, hw⟩ := Option.isSome_iff_exists.mp hp
    rw [hw]
  · rw [if_neg hp, alookup_append]
    rw [Option.not_isSome_iff_eq_none.mp hp]
    simp [alookup_cons]

theorem alookup_aset_other {β : Type} (d : List (String × β)) (k k' : String) (v : β)
    (hne : k' ≠ k) : alookup k' (aset d k v) = alookup k' d := by
  unfold aset
  by_cases hp : (alookup k d).isSome = true
  · rw [if_pos hp, alookup_map_replace_other k k' v hne]
  · rw [if_neg hp, alookup_append]
    cases hd : alookup k' d
    · have h1 : ¬ k = k' := fun hc => hne hc.symm
      show alookup k' [(k, v)] = none
      simp only [alookup_cons, if_neg h1]
      rfl
    · rfl

/-! ### Helper lemmas: the element loop of the section tagger -/

theorem foldl_tss_of_skipped (deps : XBRLTaxonomyDependencies) (k : String) :
    ∀ (sd : List (String × PyValue)) (acc : List (String × PyValue)),
    (∀ v, (k, v) ∈ sd → isListOrDict v = true) →
    alookup k (sd.foldl (tssStep deps) acc) = alookup k acc := by
  intro sd
  induction sd with
  | nil => intro acc _; rfl
  | cons p rest ih =>
    intro acc hall
    rw [List.foldl_cons]
    rw [ih _ (fun v hv => hall v (List.mem_cons_of_mem p hv))]
    unfold tssStep
    cases hld : isListOrDict p.2 with
    | true => simp
    | false =>
      simp only [Bool.false_eq_true, if_false]
      have hne : k ≠ p.1 := by
        intro hc
        have : isListOrDict p.2 = true := hall p.2 (by rw [hc]; exact List.mem_cons_self p rest)
        rw [hld] at this
        simp at this
      exact alookup_aset_other acc p.1 k _ hne

theorem foldl_tss_isSome (deps : XBRLTaxonomyDependencies) (k : String) :
    ∀ (sd : List (String × PyValue)) (acc : List (String × PyValue)),
    (alookup k acc).isSome = true →
    (alookup k (sd.foldl (tssStep deps) acc)).isSome = true := by
  intro sd
  induction sd with
  | nil => intro acc h; exact h
  | cons p rest ih =>
    intro acc h
    rw [List.foldl_cons]
    refine ih _ ?_
    unfold tssStep
    cases hld : isListOrDict p.2 with
    | true => simpa using h
    | false =>
      simp only [Bool.false_eq_true, if_false]
      by_cases hk : k = p.1
      · rw [hk, alookup_aset_self]; rfl
      · rw [alookup_aset_other acc p.1 k _ hk]; exact h

theorem foldl_tss_lookup_scalar (deps : XBRLTaxonomyDependencies) :
    ∀ (sd : List (String × PyValue)) (acc : List (String × PyValue)) (k : String) (v : PyValue),
    (sd.map Prod.fst).Nodup → (k, v) ∈ sd → isListOrDict v = false →
    alookup k (sd.foldl (tssStep deps) acc) = some (sectionElement deps (k, v)) := by
  intro sd
  induction sd with
  | nil => intro acc k v _ hmem _; simp at hmem
  | cons p rest ih =>
    intro acc k v hnod hmem hscal
    rw [List.map_cons, List.nodup_cons] at hnod
    by_cases hk : p.1 = k
    · have hp : p = (k, v) := by
        rcases List.mem_cons.mp hmem with h | h
        · exact h.symm
        · exfalso
          exact hnod.1 (hk ▸ (List.mem_map.mpr ⟨(k, v), h, rfl⟩))
      subst hp
      rw [List.foldl_cons]
      rw [foldl_tss_of_skipped deps k rest _ ?_]
      · unfold tssStep
        rw [hscal]
        simp only [Bool.false_eq_true, if_false]
        exact alookup_aset_self acc k _
      · intro v' hv'
        exact absurd (List.mem_map.mpr ⟨(k, v'), hv', rfl⟩) hnod.1
    · have hmem' : (k, v) ∈ rest := by
        rcases List.mem_cons.mp hmem with h | h
        · exact absurd (congrArg Prod.fst h.symm) hk
        · exact h
      rw [List.foldl_cons]
      exact ih _ k v hnod.2 hmem' hscal

/-! ### Helper lemmas: the dimension join -/

theorem str_append_cancel_left {a b c : String} (h : a ++ b = a ++ c) : b = c := by
  have h2 : a.data ++ b.data = a.data ++ c.data := by
    have := congrArg String.data h
    rwa [data_append, data_append] at this
  exact str_eq_of_data (List.append_cancel_left h2)

theorem str_append_cancel_right {a b c : String} (h : a ++ c = b ++ c) : a = b := by
  have h2 : a.data ++ c.data = b.data ++ c.data := by
    have := congrArg String.data h
    rwa [data_append, data_append] at this
  exact str_eq_of_data (List.append_cancel_right h2)

theorem joinParts_cons_of_ne_nil (a : String) (l : List String) (h : l ≠ []) :
    joinParts (a :: l) = a ++ "_" ++ joinParts l := by
  cases l with
  | nil => exact absurd rfl h
  | cons q ps => rfl

theorem joinParts_mid_inj : ∀ (L : List String) (x y : String) (R : List String),
    joinParts (L ++ x :: R) = joinParts (L ++ y :: R) → x = y := by
  intro L
  induction L with
  | nil =>
    intro x y R h
    cases R with
    | nil => simpa [joinParts] using h
    | cons r rs =>
      simp only [List.nil_append] at h
      rw [joinParts_cons_of_ne_nil x _ (by simp), joinParts_cons_of_ne_nil y _ (by simp)] at h
      exact str_append_cancel_right (str_append_cancel_right h)
  | cons a L' ih =>
    intro x y R h
    simp only [List.cons_append] at h
    rw [joinParts_cons_of_ne_nil a _ (by simp), joinParts_cons_of_ne_nil a _ (by simp)] at h
    exact ih x y R (str_append_cancel_left h)

/-! ### Shared sample data for witnesses and counterexamples -/

/-- A sample taxonomy tag used by concrete witnesses. -/
def sampleTag : TagDefinition :=
  ⟨"sg-as:Revenue", "monetaryItemType", "credit", "duration", "Revenue from contracts"⟩

/-- A second sample taxonomy tag used by concrete witnesses. -/
def sampleTag2 : TagDefinition :=
  ⟨"sg-as:TotalAssets", "monetaryItemType", "debit", "instant", "Total assets"⟩

/-- A sample registry used by concrete witnesses. -/
def sampleDeps : XBRLTaxonomyDependencies :=
  ⟨[("Revenue", [sampleTag]), ("TotalAssets", [sampleTag2])], [], [("Revenue", true)]⟩

/-! ### C1: context identifier format -/

/-- C1: the identifier generated by `create_context_info` follows the specified
format: period_end 2023-12-31, no start, not consolidated gives
"ctx_i20231231_s"; start 2023-01-01, end 2023-12-31, consolidated gives
"ctx_d20230101to20231231_c"; adding dimensions segment=retail, region=apac
appends the name-value pairs sorted by dimension name. -/
theorem create_context_info_id_format :
    (create_context_info "Entity" "202300001A" ⟨2023, 12, 31⟩ none false []).id
        = "ctx_i20231231_s" ∧
    (create_context_info "Entity" "202300001A" ⟨2023, 12, 31⟩ (some ⟨2023, 1, 1⟩) true []).id
        = "ctx_d20230101to20231231_c" ∧
    (create_context_info "Entity" "202300001A" ⟨2023, 12, 31⟩ (some ⟨2023, 1, 1⟩) true
        [("segment", "retail"), ("region", "apac")]).id
        = "ctx_d20230101to20231231_c_region-apac_segment-retail" :=
  ⟨rfl, rfl, rfl⟩

/-! ### C3: the identifier does not encode the entity -/

/-- C3 counterexample: two calls to `create_context_info` that differ in both
entity_name and entity_identifier but agree on all other arguments produce the
same identifier, refuting the claim that the identifiers differ. -/
theorem create_context_info_entity_collision :
    (create_context_info "Alpha Pte Ltd" "201500001A" ⟨2023, 12, 31⟩ none false []).entity_name
        ≠ (create_context_info "Beta Pte Ltd" "201600002B" ⟨2023, 12, 31⟩ none false []).entity_name ∧
    (create_context_info "Alpha Pte Ltd" "201500001A" ⟨2023, 12, 31⟩ none false []).entity_identifier
        ≠ (create_context_info "Beta Pte Ltd" "201600002B" ⟨2023, 12, 31⟩ none false []).entity_identifier ∧
    (create_context_info "Alpha Pte Ltd" "201500001A" ⟨2023, 12, 31⟩ none false []).id
        = (create_context_info "Beta Pte Ltd" "201600002B" ⟨2023, 12, 31⟩ none false []).id :=
  ⟨by decide, by decide, rfl⟩

/-- C3 amended: the generated identifier does not depend on entity_name or
entity_identifier at all — two calls that differ only in those arguments yield
identical identifiers; the entity is carried in the context's entity fields
instead of in the identifier. -/
theorem create_context_info_id_ignores_entity (en1 ei1 en2 ei2 : String) (pe : PyDate)
    (ps : Option PyDate) (ic : Bool) (dims : List (String × String)) :
    (create_context_info en1 ei1 pe ps ic dims).id
        = (create_context_info en2 ei2 pe ps ic dims).id ∧
    (create_context_info en1 ei1 pe ps ic dims).entity_name = en1 ∧
    (create_context_info en1 ei1 pe ps ic dims).entity_identifier = ei1 :=
  ⟨rfl, rfl, rfl⟩

/-! ### C5: exact match wins -/

/-- C5: for every field name present verbatim as a key in the registry's
field-tag index, `apply_tags_to_element` returns exactly that entry's tag
sequence (serialized) with the exact-match message first, regardless of any
other fuzzy-compatible entries. -/
theorem apply_tags_exact_match (deps : XBRLTaxonomyDependencies) (element_name : String)
    (value : PyValue) (statement_type : String) (is_instant : Bool)
    (ts : List TagDefinition)
    (h : alookup element_name deps.field_tags = some ts) :
    (apply_tags_to_element deps element_name value statement_type is_instant).tags
        = ts.map TagDefinition.dict ∧
    (apply_tags_to_element deps element_name value statement_type is_instant).messages.head?
        = some ("Found exact tag match for " ++ element_name) := by
  refine ⟨?_, ?_⟩ <;>
    cases hm : alookup element_name deps.mandatory_fields with
    | none => simp [apply_tags_to_element, findTags, h, hm]
    | some b => cases b <;> simp [apply_tags_to_element, findTags, h, hm]

/-- C5 witness: the exact-match theorem applied to a concrete registry in which
"Revenue" is an exact key (and also a mandatory field). -/
theorem apply_tags_exact_match_witness :
    (apply_tags_to_element sampleDeps "Revenue" (.vInt 1000) "incomeStatement" false).tags
        = [sampleTag.dict] ∧
    (apply_tags_to_element sampleDeps "Revenue" (.vInt 1000) "incomeStatement" false).messages.head?
        = some ("Found exact tag match for " ++ "Revenue") :=
  apply_tags_exact_match sampleDeps "Revenue" (.vInt 1000) "incomeStatement" false [sampleTag] rfl

/-! ### C6: fuzzy fallback and no-match safety -/

/-- The fuzzy loop is the first registry entry, in iteration order, whose key
satisfies the bidirectional case-insensitive substring condition. -/
theorem fuzzyScan_eq_find (element_name : String) :
    ∀ (l : List (String × List TagDefinition)),
    fuzzyScan element_name l = l.find? (fun q => fuzzyCond element_name q.1) := by
  intro l
  induction l with
  | nil => rfl
  | cons p rest ih =>
    obtain ⟨f, ts⟩ := p
    by_cases h : fuzzyCond element_name f
    · simp [fuzzyScan, h]
    · simp [fuzzyScan, h, ih]

/-- C6: for every field name not present as an exact key,
`apply_tags_to_element` returns the tag sequence of the first registry entry
(in iteration order) satisfying the case-insensitive bidirectional substring
test, with a message naming that candidate; if no candidate matches it returns
an empty tag sequence and a non-empty message list (the function is total, so
no error is ever raised). -/
theorem apply_tags_fuzzy_fallback (deps : XBRLTaxonomyDependencies) (element_name : String)
    (value : PyValue) (statement_type : String) (is_instant : Bool)
    (h : alookup element_name deps.field_tags = none) :
    (∀ p, fuzzyScan element_name deps.field_tags = some p →
      (apply_tags_to_element deps element_name value statement_type is_instant).tags
          = p.2.map TagDefinition.dict ∧
      ("Using similar tag: " ++ p.1)
          ∈ (apply_tags_to_element deps element_name value statement_type is_instant).messages) ∧
    (fuzzyScan element_name deps.field_tags = none →
      (apply_tags_to_element deps element_name value statement_type is_instant).tags = [] ∧
      (apply_tags_to_element deps element_name value statement_type is_instant).messages ≠ []) ∧
    fuzzyScan element_name deps.field_tags
        = deps.field_tags.find? (fun q => fuzzyCond element_name q.1) := by
  refine ⟨?_, ?_, fuzzyScan_eq_find element_name deps.field_tags⟩
  · intro p hp
    refine ⟨?_, ?_⟩ <;>
      cases hm : alookup element_name deps.mandatory_fields with
      | none => simp [apply_tags_to_element, findTags, h, hp, hm]
      | some b => cases b <;> simp [apply_tags_to_element, findTags, h, hp, hm]
  · intro hp
    refine ⟨?_, ?_⟩ <;>
      cases hm : alookup element_name deps.mandatory_fields with
      | none => simp [apply_tags_to_element, findTags, h, hp, hm]
      | some b => cases b <;> simp [apply_tags_to_element, findTags, h, hp, hm]

/-- C6 witness: the fuzzy-fallback theorem applied to a concrete registry with
no exact key for "Assets"; the loop picks "TotalAssets" ("assets" is a
case-insensitive substring of "totalassets"). -/
theorem apply_tags_fuzzy_fallback_witness :
    (apply_tags_to_element sampleDeps "Assets" (.vInt 7) "balanceSheet" true).tags
        = [sampleTag2.dict] ∧
    ("Using similar tag: " ++ "TotalAssets")
        ∈ (apply_tags_to_element sampleDeps "Assets" (.vInt 7) "balanceSheet" true).messages :=
  (apply_tags_fuzzy_fallback sampleDeps "Assets" (.vInt 7) "balanceSheet" true rfl).1
    ("TotalAssets", [sampleTag2]) rfl

/-! ### C7: mandatory-field validation -/

/-- The section search of the mandatory-field check succeeds exactly when some
section value is a dict containing the field as a key. -/
theorem any_sectionHasKey_iff (doc : List (String × PyValue)) (f : String) :
    doc.any (fun q => sectionHasKey f q.2) = true ↔
    ∃ s d, (s, PyValue.vDict d) ∈ doc ∧ (alookup f d).isSome = true := by
  rw [List.any_eq_true]
  constructor
  · rintro ⟨q, hq, hkey⟩
    obtain ⟨s, v⟩ := q
    cases v with
    | vDict d => exact ⟨s, d, hq, by simpa [sectionHasKey] using hkey⟩
    | vStr s' => simp [sectionHasKey] at hkey
    | vInt n => simp [sectionHasKey] at hkey
    | vBool b => simp [sectionHasKey] at hkey
    | vNone => simp [sectionHasKey] at hkey
    | vList l => simp [sectionHasKey] at hkey
  · rintro ⟨s, d, hmem, hl⟩
    exact ⟨(s, .vDict d), hmem, by simpa [sectionHasKey] using hl⟩

/-- Every issue produced by the tag-coverage pass is a `missing_tags` issue. -/
theorem missingTagsIssues_shape (doc : List (String × PyValue)) :
    ∀ i ∈ missingTagsIssues doc, ∃ s f m, i = ValidationIssue.missing_tags s f m := by
  intro i hi
  unfold missingTagsIssues at hi
  rw [List.mem_flatMap] at hi
  obtain ⟨q, _hq, hmem⟩ := hi
  unfold sectionIssues at hmem
  split at hmem
  · rw [List.mem_filterMap] at hmem
    obtain ⟨fp, _hfp, heq⟩ := hmem
    unfold fieldIssue at heq
    split at heq
    · split at heq
      · split at heq
        · exact ⟨_, _, _, (Option.some.inj heq).symm⟩
        · cases heq
      · cases heq
    · cases heq
  · cases hmem

/-- Membership of a `missing_mandatory_field` issue in the validator output,
characterized: the field is flagged mandatory and the section search fails. -/
theorem mmf_mem_validate_iff (deps : XBRLTaxonomyDependencies)
    (doc : List (String × PyValue)) (f : String) :
    (∃ m, ValidationIssue.missing_mandatory_field f m ∈ validate_tagged_data deps doc) ↔
    ((f, true) ∈ deps.mandatory_fields ∧
      doc.any (fun q => sectionHasKey f q.2) = false) := by
  constructor
  · rintro ⟨m, hm⟩
    unfold validate_tagged_data at hm
    rw [List.mem_append] at hm
    rcases hm with hm | hm
    · unfold missingMandatoryIssues at hm
      rw [List.mem_filterMap] at hm
      obtain ⟨p, hp, heq⟩ := hm
      unfold mandatoryIssue at heq
      by_cases hc : (p.2 && !(doc.any (fun q => sectionHasKey p.1 q.2))) = true
      · rw [if_pos hc] at heq
        obtain ⟨hf1, -⟩ := ValidationIssue.missing_mandatory_field.inj (Option.some.inj heq)
        rw [Bool.and_eq_true, Bool.not_eq_true'] at hc
        subst hf1
        obtain ⟨s1, s2⟩ := p
        simp only at hc
        rcases hc with ⟨hc1, hc2⟩
        subst hc1
        exact ⟨hp, hc2⟩
      · rw [if_neg hc] at heq; cases heq
    · obtain ⟨s, f', m', hshape⟩ := missingTagsIssues_shape doc _ hm
      cases hshape
  · rintro ⟨hmem, hany⟩
    refine ⟨"Mandatory field '" ++ f ++ "' is missing from the tagged data", ?_⟩
    unfold validate_tagged_data
    rw [List.mem_append]
    left
    unfold missingMandatoryIssues
    rw [List.mem_filterMap]
    refine ⟨(f, true), hmem, ?_⟩
    unfold mandatoryIssue
    rw [if_pos (by simp [hany])]

/-- C7: `validate_tagged_data` emits a `missing_mandatory_field` issue naming a
mandatory field if and only if that field is absent as a key from every
(dict-valued) section of the document; in particular, when every mandatory
field appears in some section, no such issue is emitted at all. -/
theorem validate_missing_mandatory_iff :
    (∀ (deps : XBRLTaxonomyDependencies) (doc : List (String × PyValue)) (f : String),
      (f, true) ∈ deps.mandatory_fields →
      ((∃ m, ValidationIssue.missing_mandatory_field f m ∈ validate_tagged_data deps doc) ↔
        ¬ ∃ s d, (s, PyValue.vDict d) ∈ doc ∧ (alookup f d).isSome = true)) ∧
    (∀ (deps : XBRLTaxonomyDependencies) (doc : List (String × PyValue)),
      (∀ f, (f, true) ∈ deps.mandatory_fields →
        ∃ s d, (s, PyValue.vDict d) ∈ doc ∧ (alookup f d).isSome = true) →
      ∀ f m, ValidationIssue.missing_mandatory_field f m ∉ validate_tagged_data deps doc) := by
  constructor
  · intro deps doc f hf
    rw [mmf_mem_validate_iff deps doc f]
    rw [← any_sectionHasKey_iff doc f]
    constructor
    · rintro ⟨-, hany⟩
      rw [hany]
      simp
    · intro hnot
      exact ⟨hf, by simpa using hnot⟩
  · intro deps doc hall f m hmem
    have h1 : (∃ m, ValidationIssue.missing_mandatory_field f m ∈ validate_tagged_data deps doc) :=
      ⟨m, hmem⟩
    rw [mmf_mem_validate_iff deps doc f] at h1
    obtain ⟨hf, hany⟩ := h1
    have := (any_sectionHasKey_iff doc f).mpr (hall f hf)
    rw [this] at hany
    cases hany

/-- C7 witness: the iff applied to a concrete registry and document: "Revenue"
is mandatory and absent from the only section, so an issue naming it is
emitted. -/
theorem validate_missing_mandatory_iff_witness :
    ∃ m, ValidationIssue.missing_mandatory_field "Revenue" m
      ∈ validate_tagged_data sampleDeps [("balanceSheet", PyValue.vDict [])] :=
  (validate_missing_mandatory_iff.1 sampleDeps [("balanceSheet", PyValue.vDict [])]
    "Revenue" (List.mem_cons_self _ _)).mpr
    (by rintro ⟨s, d, hmem, hl⟩
        rcases List.mem_cons.mp hmem with h | h
        · cases h
          simp [alookup] at hl
        · cases h)

/-! ### C8: tag-coverage validation -/

/-- A value of the interchange TaggedElement shape: a dict whose `"tags"` entry
is present and is a list. -/
def isTaggedElement : PyValue → Bool
  | .vDict fd =>
    match alookup "tags" fd with
    | some (.vList _) => true
    | _ => false
  | _ => false

/-- A TaggedElement whose tag list is empty. -/
def isEmptyTagsElement : PyValue → Bool
  | .vDict fd =>
    match alookup "tags" fd with
    | some (.vList ts) => ts.isEmpty
    | _ => false
  | _ => false

/-- A document of the interchange shape: every section value is a dict and
every field value in it is a TaggedElement. -/
def wellFormedDoc (doc : List (String × PyValue)) : Bool :=
  doc.all (fun q =>
    match q.2 with
    | .vDict d => d.all (fun fp => isTaggedElement fp.2)
    | _ => false)

/-- The (section, field) pairs contributed by one section whose TaggedElement
carries an empty tag list. -/
def sectionEmptyPairs (q : String × PyValue) : List (String × String) :=
  match q.2 with
  | .vDict d => (d.filter (fun fp => isEmptyTagsElement fp.2)).map (fun fp => (q.1, fp.1))
  | _ => []

/-- The (section, field) pairs of the document whose TaggedElement carries an
empty tag list, in document order. -/
def emptyTagPairs (doc : List (String × PyValue)) : List (String × String) :=
  doc.flatMap sectionEmptyPairs

/-- Recognizer for the `missing_tags` issue shape. -/
def isMissingTagsIssue : ValidationIssue → Bool
  | .missing_tags _ _ _ => true
  | _ => false

theorem missingTagsIssues_cons (q : String × PyValue) (rest : List (String × PyValue)) :
    missingTagsIssues (q :: rest) = sectionIssues q ++ missingTagsIssues rest := by
  unfold missingTagsIssues
  rw [List.flatMap_cons]

theorem emptyTagPairs_cons (q : String × PyValue) (rest : List (String × PyValue)) :
    emptyTagPairs (q :: rest) = sectionEmptyPairs q ++ emptyTagPairs rest := by
  unfold emptyTagPairs
  rw [List.flatMap_cons]

/-- On a TaggedElement-shaped field value, the field loop of the tag-coverage
check fires exactly when the tag list is empty. -/
theorem fieldIssue_tagged (sname : String) (fp : String × PyValue)
    (h : isTaggedElement fp.2 = true) :
    fieldIssue sname fp =
      if isEmptyTagsElement fp.2 then
        some (ValidationIssue.missing_tags sname fp.1
          ("No tags applied to field '" ++ fp.1 ++ "' in section '" ++ sname ++ "'"))
      else none := by
  obtain ⟨f, v⟩ := fp
  cases v with
  | vDict fd =>
    simp only [isTaggedElement] at h
    cases hl : alookup "tags" fd with
    | some tv =>
      rw [hl] at h
      cases tv with
      | vList ts => simp only [fieldIssue, isEmptyTagsElement, hl, pyFalsy]
      | vStr s' => cases h
      | vInt n => cases h
      | vBool b => cases h
      | vNone => cases h
      | vDict d' => cases h
    | none => rw [hl] at h; cases h
  | vStr s' => cases h
  | vInt n => cases h
  | vBool b => cases h
  | vNone => cases h
  | vList l => cases h

/-- Over a dict of TaggedElement-shaped fields, the field loop produces exactly
one issue per empty-tag field, in order. -/
theorem sectionIssues_tagged (sname : String) :
    ∀ (d : List (String × PyValue)), (∀ x ∈ d, isTaggedElement x.2 = true) →
    d.filterMap (fieldIssue sname) =
      (d.filter (fun fp => isEmptyTagsElement fp.2)).map
        (fun fp => ValidationIssue.missing_tags sname fp.1
          ("No tags applied to field '" ++ fp.1 ++ "' in section '" ++ sname ++ "'")) := by
  intro d
  induction d with
  | nil => intro _; rfl
  | cons fp dr ih =>
    intro hall
    rw [List.filterMap_cons, List.filter_cons]
    rw [fieldIssue_tagged sname fp (hall fp (List.mem_cons_self fp dr))]
    have ihr := ih (fun x hx => hall x (List.mem_cons_of_mem fp hx))
    cases he : isEmptyTagsElement fp.2 with
    | true => simp [ihr]
    | false => simp [ihr]

/-- On a well-formed document, the tag-coverage pass produces exactly one
`missing_tags` issue per (section, field) pair with an empty tag list, in
order. -/
theorem missingTagsIssues_eq_map (doc : List (String × PyValue))
    (hwf : wellFormedDoc doc = true) :
    missingTagsIssues doc = (emptyTagPairs doc).map (fun p =>
      ValidationIssue.missing_tags p.1 p.2
        ("No tags applied to field '" ++ p.2 ++ "' in section '" ++ p.1 ++ "'")) := by
  unfold wellFormedDoc at hwf
  rw [List.all_eq_true] at hwf
  induction doc with
  | nil => rfl
  | cons q rest ih =>
    rw [missingTagsIssues_cons, emptyTagPairs_cons, List.map_append]
    rw [ih (fun x hx => hwf x (List.mem_cons_of_mem q hx))]
    congr 1
    have hq := hwf q (List.mem_cons_self q rest)
    obtain ⟨qs, qv⟩ := q
    cases qv with
    | vDict d =>
      simp only [List.all_eq_true] at hq
      show d.filterMap (fieldIssue qs) = _
      rw [show sectionEmptyPairs (qs, .vDict d)
            = (d.filter (fun fp => isEmptyTagsElement fp.2)).map (fun fp => (qs, fp.1)) from rfl]
      rw [List.map_map]
      exact sectionIssues_tagged qs d hq
    | vStr s' => simp at hq
    | vInt n => simp at hq
    | vBool b => simp at hq
    | vNone => simp at hq
    | vList l => simp at hq

/-- Every issue produced by the mandatory-field pass is a
`missing_mandatory_field` issue. -/
theorem missingMandatoryIssues_shape (deps : XBRLTaxonomyDependencies)
    (doc : List (String × PyValue)) :
    ∀ i ∈ missingMandatoryIssues deps doc, ∃ f m, i = ValidationIssue.missing_mandatory_field f m := by
  intro i hi
  unfold missingMandatoryIssues at hi
  rw [List.mem_filterMap] at hi
  obtain ⟨p, _hp, heq⟩ := hi
  unfold mandatoryIssue at heq
  split at heq
  · exact ⟨_, _, (Option.some.inj heq).symm⟩
  · cases heq

/-- C8: for a well-formed document with exactly one field whose TaggedElement
has an empty tag list, `validate_tagged_data` returns exactly one
`missing_tags` issue, and it names that section and field. -/
theorem validate_single_missing_tags (deps : XBRLTaxonomyDependencies)
    (doc : List (String × PyValue)) (s f : String)
    (hwf : wellFormedDoc doc = true)
    (hone : emptyTagPairs doc = [(s, f)]) :
    (validate_tagged_data deps doc).filter isMissingTagsIssue
      = [ValidationIssue.missing_tags s f
          ("No tags applied to field '" ++ f ++ "' in section '" ++ s ++ "'")] := by
  unfold validate_tagged_data
  rw [List.filter_append]
  have h1 : (missingMandatoryIssues deps doc).filter isMissingTagsIssue = [] := by
    rw [List.filter_eq_nil_iff]
    intro i hi
    obtain ⟨f', m', hshape⟩ := missingMandatoryIssues_shape deps doc i hi
    rw [hshape]
    simp [isMissingTagsIssue]
  have h2 : (missingTagsIssues doc).filter isMissingTagsIssue = missingTagsIssues doc := by
    rw [List.filter_eq_self]
    intro i hi
    obtain ⟨s', f', m', hshape⟩ := missingTagsIssues_shape doc i hi
    rw [hshape]
    rfl
  rw [h1, h2, List.nil_append, missingTagsIssues_eq_map doc hwf, hone]
  rfl

/-- C8 witness: a concrete one-section document whose single field "cash"
carries an empty tag list yields exactly the one issue naming it. -/
theorem validate_single_missing_tags_witness :
    (validate_tagged_data sampleDeps
        [("balanceSheet", PyValue.vDict
          [("cash", PyValue.vDict [("value", PyValue.vInt 5), ("tags", PyValue.vList [])])])]).filter
        isMissingTagsIssue
      = [ValidationIssue.missing_tags "balanceSheet" "cash"
          ("No tags applied to field '" ++ "cash" ++ "' in section '" ++ "balanceSheet" ++ "'")] :=
  validate_single_missing_tags sampleDeps
    [("balanceSheet", PyValue.vDict
      [("cash", PyValue.vDict [("value", PyValue.vInt 5), ("tags", PyValue.vList [])])])]
    "balanceSheet" "cash" rfl rfl

/-! ### C2: section tagging versus the Tag Resolver -/

/-- C2 counterexample: over a registry whose only key is "TotalAssets", the
scalar field "Assets" gets an empty tag list from `tag_statement_section`
(exact lookup only), while `apply_tags_to_element` resolves it by fuzzy
fallback to the TotalAssets tags — so the two disagree. -/
theorem tag_statement_section_ne_resolver :
    alookup "Assets"
        (tag_statement_section ⟨[("TotalAssets", [sampleTag2])], [], []⟩ "balanceSheet"
          [("Assets", .vStr "5")])
      = some (.vDict [("value", .vStr "5"), ("tags", .vList [])]) ∧
    (apply_tags_to_element ⟨[("TotalAssets", [sampleTag2])], [], []⟩ "Assets" (.vStr "5")
        "balanceSheet" true).tags
      = [sampleTag2.dict] ∧
    ([] : List PyValue) ≠ [sampleTag2.dict] :=
  ⟨rfl, rfl, fun h => List.noConfusion h⟩

/-- C2 amended: for every scalar entry of section_data, the tags attached by
`tag_statement_section` are exactly those of the registry's verbatim entry for
the field name (empty when the field name is not an exact key): the section
tagger performs the exact lookup only and never the fuzzy fallback of
`apply_tags_to_element`, so the two agree exactly on fields that are exact
keys or have no fuzzy match. -/
theorem tag_statement_section_exact_only (deps : XBRLTaxonomyDependencies)
    (section_name : String) (section_data : List (String × PyValue))
    (k : String) (v : PyValue)
    (hnod : (section_data.map Prod.fst).Nodup)
    (hmem : (k, v) ∈ section_data)
    (hscal : isListOrDict v = false) :
    alookup k (tag_statement_section deps section_name section_data)
      = some (.vDict [("value", v),
          ("tags", .vList (((alookup k deps.field_tags).getD []).map TagDefinition.dict))]) :=
  foldl_tss_lookup_scalar deps section_data _ k v hnod hmem hscal

/-- C2 amended witness: the exact-only theorem applied to a concrete section
with the scalar field "Assets", which is not an exact registry key and
therefore receives no tags from the section tagger. -/
theorem tag_statement_section_exact_only_witness :
    alookup "Assets"
        (tag_statement_section ⟨[("TotalAssets", [sampleTag2])], [], []⟩ "balanceSheet"
          [("Assets", .vStr "5")])
      = some (.vDict [("value", .vStr "5"),
          ("tags", .vList (((alookup "Assets"
              (XBRLTaxonomyDependencies.mk [("TotalAssets", [sampleTag2])] [] []).field_tags).getD
                []).map TagDefinition.dict))]) :=
  tag_statement_section_exact_only ⟨[("TotalAssets", [sampleTag2])], [], []⟩ "balanceSheet"
    [("Assets", .vStr "5")] "Assets" (.vStr "5") (by decide) (List.mem_cons_self _ _) rfl

/-! ### C9: nested values and the output keys -/

/-- C9 counterexample: a section_data entry whose key is "meta_tags" and whose
value is a list is skipped, yet the key "meta_tags" does appear in the output
(it is pre-initialized), refuting the claim for that key. -/
theorem tag_statement_section_list_key_present :
    isListOrDict (.vList []) = true ∧
    alookup "meta_tags"
        (tag_statement_section ⟨[], [], []⟩ "filingInformation" [("meta_tags", .vList [])])
      ≠ none :=
  ⟨rfl, fun h => Option.noConfusion h⟩

/-- In an association list with pairwise-distinct keys, a member pair is what
the lookup of its key returns. -/
theorem alookup_eq_of_mem_nodup {β : Type} (k : String) (x : β) :
    ∀ (l : List (String × β)), (l.map Prod.fst).Nodup → (k, x) ∈ l →
    alookup k l = some x := by
  intro l
  induction l with
  | nil => intro _ hm; cases hm
  | cons p rest ih =>
    intro hnod hm
    obtain ⟨p1, p2⟩ := p
    rw [List.map_cons, List.nodup_cons] at hnod
    rcases List.mem_cons.mp hm with h | h
    · obtain ⟨h1, h2⟩ := Prod.mk.inj h.symm
      rw [alookup_cons, if_pos h1, h2]
    · have hne : ¬ p1 = k := by
        intro hc
        exact hnod.1 (hc ▸ List.mem_map.mpr ⟨(k, x), h, rfl⟩)
      rw [alookup_cons, if_neg hne]
      exact ih hnod.2 h

/-- C9 amended: every key other than the reserved key "meta_tags" whose value
is a nested mapping or a sequence never appears as a key in the output of
`tag_statement_section`. -/
theorem tag_statement_section_skips_nested (deps : XBRLTaxonomyDependencies)
    (section_name : String) (section_data : List (String × PyValue))
    (k : String) (v : PyValue)
    (hk : k ≠ "meta_tags")
    (hnod : (section_data.map Prod.fst).Nodup)
    (hmem : (k, v) ∈ section_data)
    (hld : isListOrDict v = true) :
    alookup k (tag_statement_section deps section_name section_data) = none := by
  have hall : ∀ v', (k, v') ∈ section_data → isListOrDict v' = true := by
    intro v' hv'
    have h1 := alookup_eq_of_mem_nodup k v section_data hnod hmem
    have h2 := alookup_eq_of_mem_nodup k v' section_data hnod hv'
    exact (Option.some.inj (h1.symm.trans h2)) ▸ hld
  unfold tag_statement_section
  rw [foldl_tss_of_skipped deps k section_data _ hall]
  rw [alookup_cons, if_neg (fun hc => hk hc.symm)]
  rfl

/-- C9 amended witness: a concrete dict-valued field "debt" is absent from the
concrete output. -/
theorem tag_statement_section_skips_nested_witness :
    alookup "debt"
        (tag_statement_section sampleDeps "balanceSheet" [("debt", PyValue.vDict [])]) = none :=
  tag_statement_section_skips_nested sampleDeps "balanceSheet" [("debt", PyValue.vDict [])]
    "debt" (PyValue.vDict []) (by decide) (by decide) (List.mem_cons_self _ _) rfl

/-! ### C10: the reserved key "meta_tags" -/

/-- C10: the output of `tag_statement_section` always contains the key
"meta_tags" (it is initialized before field processing); and when section_data
itself contains a scalar entry named "meta_tags", its stored {value, tags}
element overwrites the collected section-level meta tags, which are then
absent from the result. -/
theorem tag_statement_section_meta_tags :
    (∀ (deps : XBRLTaxonomyDependencies) (section_name : String)
      (section_data : List (String × PyValue)),
      (alookup "meta_tags" (tag_statement_section deps section_name section_data)).isSome
        = true) ∧
    (∀ (deps : XBRLTaxonomyDependencies) (section_name : String)
      (section_data : List (String × PyValue)) (v : PyValue),
      (section_data.map Prod.fst).Nodup →
      ("meta_tags", v) ∈ section_data →
      isListOrDict v = false →
      alookup "meta_tags" (tag_statement_section deps section_name section_data)
        = some (.vDict [("value", v),
            ("tags", .vList (((alookup "meta_tags" deps.field_tags).getD []).map
              TagDefinition.dict))])) := by
  constructor
  · intro deps sname sd
    unfold tag_statement_section
    refine foldl_tss_isSome deps "meta_tags" sd _ ?_
    rw [alookup_cons, if_pos rfl]
    rfl
  · intro deps sname sd v hnod hmem hscal
    exact foldl_tss_lookup_scalar deps sd _ "meta_tags" v hnod hmem hscal

/-- C10 witness: with a scalar input field literally named "meta_tags", the
output's "meta_tags" entry is that field's {value, tags} element, not the
collected meta-tag list. -/
theorem tag_statement_section_meta_tags_witness :
    alookup "meta_tags"
        (tag_statement_section sampleDeps "balanceSheet" [("meta_tags", PyValue.vStr "x")])
      = some (.vDict [("value", PyValue.vStr "x"),
          ("tags", .vList (((alookup "meta_tags" sampleDeps.field_tags).getD []).map
            TagDefinition.dict))]) :=
  tag_statement_section_meta_tags.2 sampleDeps "balanceSheet"
    [("meta_tags", PyValue.vStr "x")] (PyValue.vStr "x") (by decide)
    (List.mem_cons_self _ _) rfl

/-! ### C4: identifier determinism and input sensitivity -/

/-- Strict comparison of dimension items by name only; a dict presented in
strictly name-sorted order is the canonical presentation of its contents. -/
def keyLT (p q : String × String) : Prop := charListLT p.1.data q.1.data = true

instance : DecidableRel keyLT := fun p q =>
  instDecidableEqBool (charListLT p.1.data q.1.data) true

theorem dimRel_of_keyLT {p q : String × String} (h : keyLT p q) : dimRel p q :=
  pairLE_iff.mpr (Or.inl h)

/-- Permuting the dimension items does not change the generated identifier
(the items are sorted before being rendered). -/
theorem create_context_info_id_eq_of_perm (en ei : String) (pe : PyDate) (ps : Option PyDate)
    (ic : Bool) (d1 d2 : List (String × String)) (hperm : d1.Perm d2) :
    (create_context_info en ei pe ps ic d1).id = (create_context_info en ei pe ps ic d2).id := by
  have hsort : sortedItems d1 = sortedItems d2 :=
    List.eq_of_perm_of_sorted
      (((List.perm_insertionSort dimRel d1).trans hperm).trans
        (List.perm_insertionSort dimRel d2).symm)
      (List.sorted_insertionSort dimRel d1) (List.sorted_insertionSort dimRel d2)
  cases d1 with
  | nil =>
    have h2 : d2 = [] := hperm.symm.eq_nil
    subst h2
    rfl
  | cons p l =>
    cases d2 with
    | nil => exact absurd hperm.eq_nil (by simp)
    | cons q m =>
      simp only [create_context_info]
      rw [show List.isEmpty (p :: l) = false from rfl, show List.isEmpty (q :: m) = false from rfl]
      simp only [Bool.false_eq_true, if_false]
      rw [hsort]

/-- The period component begins with a different letter for instant and
duration contexts, so the identifiers differ. -/
theorem create_context_info_id_instant_ne_duration (en ei : String) (pe s : PyDate)
    (ic : Bool) (dims : List (String × String)) :
    (create_context_info en ei pe none ic dims).id
      ≠ (create_context_info en ei pe (some s) ic dims).id := by
  intro h
  have hd := congrArg String.data h
  cases hE : dims.isEmpty <;>
  · simp only [create_context_info, hE, Bool.false_eq_true, if_false, if_true] at hd
    simp only [data_append] at hd
    simp at hd

/-- Flipping the consolidation flag changes the scope letter in place, so the
identifiers differ. -/
theorem create_context_info_id_consolidated_ne (en ei : String) (pe : PyDate)
    (ps : Option PyDate) (dims : List (String × String)) :
    (create_context_info en ei pe ps true dims).id
      ≠ (create_context_info en ei pe ps false dims).id := by
  intro h
  have hcs : ("c" : String) ≠ "s" := by decide
  cases hE : dims.isEmpty <;>
    simp only [create_context_info, hE, Bool.false_eq_true, if_false, if_true] at h
  · exact hcs (str_append_cancel_left (str_append_cancel_right (str_append_cancel_right h)))
  · exact hcs (str_append_cancel_left h)

/-- Replacing the value of one dimension item keeps the key order sorted. -/
theorem sorted_keyLT_replace (l r : List (String × String)) (k v v' : String)
    (h : List.Sorted keyLT (l ++ (k, v) :: r)) :
    List.Sorted keyLT (l ++ (k, v') :: r) := by
  unfold List.Sorted at h ⊢
  rw [List.pairwise_append] at h ⊢
  obtain ⟨h1, h2, h3⟩ := h
  rw [List.pairwise_cons] at h2 ⊢
  refine ⟨h1, ⟨h2.1, h2.2⟩, ?_⟩
  intro a ha b hb
  rcases List.mem_cons.mp hb with hb | hb
  · subst hb
    exact h3 a ha (k, v) (List.mem_cons_self _ _)
  · exact h3 a ha b (List.mem_cons_of_mem _ hb)

/-- A strictly name-sorted dimension list is sorted for the full item order. -/
theorem sorted_dimRel_of_keyLT {s : List (String × String)}
    (h : List.Sorted keyLT s) : List.Sorted dimRel s :=
  List.Pairwise.imp (fun hk => dimRel_of_keyLT hk) h

/-- Changing the value of a single dimension item (all other inputs fixed)
changes the identifier: the core injectivity argument on the canonical sorted
presentation. -/
theorem create_context_info_id_dim_value_ne (en ei : String) (pe : PyDate)
    (ps : Option PyDate) (ic : Bool) (l r : List (String × String)) (k v v' : String)
    (hsorted : List.Sorted keyLT (l ++ (k, v) :: r)) (hne : v ≠ v')
    (d1 d2 : List (String × String))
    (hp1 : d1.Perm (l ++ (k, v) :: r)) (hp2 : d2.Perm (l ++ (k, v') :: r)) :
    (create_context_info en ei pe ps ic d1).id ≠ (create_context_info en ei pe ps ic d2).id := by
  intro h
  rw [create_context_info_id_eq_of_perm en ei pe ps ic d1 (l ++ (k, v) :: r) hp1,
    create_context_info_id_eq_of_perm en ei pe ps ic d2 (l ++ (k, v') :: r) hp2] at h
  have hs1 : sortedItems (l ++ (k, v) :: r) = l ++ (k, v) :: r :=
    (sorted_dimRel_of_keyLT hsorted).insertionSort_eq
  have hs2 : sortedItems (l ++ (k, v') :: r) = l ++ (k, v') :: r :=
    (sorted_dimRel_of_keyLT (sorted_keyLT_replace l r k v v' hsorted)).insertionSort_eq
  have hne1 : (l ++ (k, v) :: r).isEmpty = false := by
    cases l <;> rfl
  have hne2 : (l ++ (k, v') :: r).isEmpty = false := by
    cases l <;> rfl
  simp only [create_context_info, hne1, hne2, Bool.false_eq_true, if_false] at h
  rw [hs1, hs2] at h
  have hJ := str_append_cancel_left h
  rw [List.map_append, List.map_cons, List.map_append, List.map_cons] at hJ
  have hmid := joinParts_mid_inj _ _ _ _ hJ
  exact hne (str_append_cancel_left hmid)

/-- C4: the identifier is deterministic in the dimension mapping contents
(any permutation of the items yields a byte-identical identifier), and it is
sensitive to period_start presence, to the consolidation flag, and to any
single dimension value (all other inputs fixed, the mapping given as any
permutation of its canonical name-sorted presentation). -/
theorem create_context_info_determinism_sensitivity :
    (∀ (en ei : String) (pe : PyDate) (ps : Option PyDate) (ic : Bool)
      (d1 d2 : List (String × String)), d1.Perm d2 →
      (create_context_info en ei pe ps ic d1).id = (create_context_info en ei pe ps ic d2).id) ∧
    (∀ (en ei : String) (pe s : PyDate) (ic : Bool) (dims : List (String × String)),
      (create_context_info en ei pe none ic dims).id
        ≠ (create_context_info en ei pe (some s) ic dims).id) ∧
    (∀ (en ei : String) (pe : PyDate) (ps : Option PyDate) (dims : List (String × String)),
      (create_context_info en ei pe ps true dims).id
        ≠ (create_context_info en ei pe ps false dims).id) ∧
    (∀ (en ei : String) (pe : PyDate) (ps : Option PyDate) (ic : Bool)
      (l r : List (String × String)) (k v v' : String),
      List.Sorted keyLT (l ++ (k, v) :: r) → v ≠ v' →
      ∀ (d1 d2 : List (String × String)),
      d1.Perm (l ++ (k, v) :: r) → d2.Perm (l ++ (k, v') :: r) →
      (create_context_info en ei pe ps ic d1).id
        ≠ (create_context_info en ei pe ps ic d2).id) :=
  ⟨create_context_info_id_eq_of_perm,
   create_context_info_id_instant_ne_duration,
   create_context_info_id_consolidated_ne,
   fun en ei pe ps ic l r k v v' hs hne d1 d2 hp1 hp2 =>
     create_context_info_id_dim_value_ne en ei pe ps ic l r k v v' hs hne d1 d2 hp1 hp2⟩

/-- C4 witness: the determinism part applied to two input orders of the same
two-dimension mapping, and the value-sensitivity part applied to a concrete
one-dimension mapping. -/
theorem create_context_info_determinism_sensitivity_witness :
    (create_context_info "E" "1" ⟨2023, 12, 31⟩ none false
        [("segment", "retail"), ("region", "apac")]).id
      = (create_context_info "E" "1" ⟨2023, 12, 31⟩ none false
        [("region", "apac"), ("segment", "retail")]).id ∧
    (create_context_info "E" "1" ⟨2023, 12, 31⟩ none false [("segment", "retail")]).id
      ≠ (create_context_info "E" "1" ⟨2023, 12, 31⟩ none false [("segment", "wholesale")]).id :=
  ⟨create_context_info_determinism_sensitivity.1 "E" "1" ⟨2023, 12, 31⟩ none false
      _ _ (List.Perm.swap _ _ []),
   create_context_info_determinism_sensitivity.2.2.2 "E" "1" ⟨2023, 12, 31⟩ none false
      [] [] "segment" "retail" "wholesale" (List.sorted_singleton _) (by decide)
      _ _ (List.Perm.refl _) (List.Perm.refl _)⟩

end POC
